import Mathlib

/-!
Shallow embedding of the t-game repository's movement and frame-update core.

The repository has three near-duplicate TypeScript variants:
  * `src/src/game.ts`        — pure `Vector2.normalize`, radius-ignoring `Player.move`
                               (bounds `0 ≤ new ≤ GRID`), game loop with a pause check.
  * `src/unnamed/part_000`   — pure `Vector2.normalize`, radius-aware `Player.move`
                               (bounds `radius ≤ new` and `new + radius ≤ GRID`),
                               a standalone `updateFPS` and `handleInput`.
  * `src/unnamed/part_001`   — in-place `Vector2.normalize`, radius-ignoring
                               `Player.move`.

JavaScript numbers are modelled as real numbers (`ℝ`); the FPS sampler and the
game-loop bookkeeping only ever compare and add millisecond timestamps, so their
times are modelled as rationals (`ℚ`), which keeps that part executable.
-/

set_option autoImplicit false

namespace TGame

/-- Grid height, `GRID_ROWS = 10` in all variants. -/
def GRID_ROWS : ℝ := 10

/-- Grid width, `GRID_COLS = 10` in all variants. -/
def GRID_COLS : ℝ := 10

/-- `class Vector2 { x: number; y: number }` (all variants). -/
structure Vector2 where
  x : ℝ
  y : ℝ

namespace Vector2

/-- `add(other)` mutates the receiver componentwise; modelled as the value the
receiver holds afterwards (game.ts lines 59-62). -/
def add (v other : Vector2) : Vector2 :=
  ⟨v.x + other.x, v.y + other.y⟩

/-- `Math.sqrt(this.x * this.x + this.y * this.y)` — the `length` local of
`normalize` (game.ts line 69). -/
noncomputable def length (v : Vector2) : ℝ :=
  Real.sqrt (v.x * v.x + v.y * v.y)

/-- Pure `normalize()` of game.ts lines 68-74 and part_000 lines 111-117:
if `length > 0` return a new vector `(x/length, y/length)`, else return
`new Vector2(0, 0)`. -/
noncomputable def normalize (v : Vector2) : Vector2 :=
  if 0 < v.length then ⟨v.x / v.length, v.y / v.length⟩ else ⟨0, 0⟩

/-- In-place `normalize()` of part_001 lines 68-75: if `length > 0` divide the
receiver's own fields by `length`, then return `this`; modelled as the value
of the receiver after the call. When `length = 0` the receiver is returned
unchanged. -/
noncomputable def normalizeInPlace (v : Vector2) : Vector2 :=
  if 0 < v.length then ⟨v.x / v.length, v.y / v.length⟩ else v

end Vector2

/-- `class Player` (game.ts lines 12-28): position, radius, color, speed. -/
structure Player where
  position : Vector2
  radius : ℝ
  color : String
  speed : ℝ

namespace Player

/-- `move(direction)` of game.ts lines 30-44 (identical in part_001 lines
30-44): normalize the direction, scale by `speed`, and update each axis
independently, only when the candidate stays within `0 ≤ new ≤ GRID`. -/
noncomputable def move (p : Player) (direction : Vector2) : Player :=
  let normalizedDirection := direction.normalize
  let deltaX := normalizedDirection.x * p.speed
  let deltaY := normalizedDirection.y * p.speed
  let newX := p.position.x + deltaX
  let newY := p.position.y + deltaY
  let x := if 0 ≤ newX ∧ newX ≤ GRID_COLS then newX else p.position.x
  let y := if 0 ≤ newY ∧ newY ≤ GRID_ROWS then newY else p.position.y
  ⟨⟨x, y⟩, p.radius, p.color, p.speed⟩

/-- `move(direction)` of part_000 lines 45-60: same shape, but the bounds
checks account for the radius: `newX - radius ≥ 0 && newX + radius ≤
GRID_COLS` (and similarly for y). -/
noncomputable def moveRadiusAware (p : Player) (direction : Vector2) : Player :=
  let normalizedDirection := direction.normalize
  let deltaX := normalizedDirection.x * p.speed
  let deltaY := normalizedDirection.y * p.speed
  let newX := p.position.x + deltaX
  let newY := p.position.y + deltaY
  let x := if 0 ≤ newX - p.radius ∧ newX + p.radius ≤ GRID_COLS then newX else p.position.x
  let y := if 0 ≤ newY - p.radius ∧ newY + p.radius ≤ GRID_ROWS then newY else p.position.y
  ⟨⟨x, y⟩, p.radius, p.color, p.speed⟩

end Player

/-- The player created at startup: `new Player(new Vector2(0.5, 0.5), 0.2,
"lightgreen", 0.05)` (game.ts line 247, part_000 `initPlayer` line 465,
part_001 line 243). -/
noncomputable def initialPlayer : Player :=
  ⟨⟨0.5, 0.5⟩, 0.2, "lightgreen", 0.05⟩

/-- Accumulation of the per-tick movement vector from the held direction keys
(game.ts gameLoop lines 290-294; part_000 `handleInput` lines 382-386 and
part_001 gameLoop lines 270-274 accumulate identically): start from `(0,0)`
and `add` a `speed * dt`-scaled axis contribution for each held direction. -/
noncomputable def rawMovement (speed dt : ℝ) (w s a d : Bool) : Vector2 :=
  let movement : Vector2 := ⟨0, 0⟩
  let movement := if w then movement.add ⟨0, -(speed * dt)⟩ else movement
  let movement := if s then movement.add ⟨0, speed * dt⟩ else movement
  let movement := if a then movement.add ⟨-(speed * dt), 0⟩ else movement
  let movement := if d then movement.add ⟨speed * dt, 0⟩ else movement
  movement

/-- One tick's movement of game.ts gameLoop lines 290-298: accumulate the raw
vector, then `player1.move(movement)`.  Line 296 (`if (movement.x !== 0 ||
movement.y !== 0) movement.normalize();`) calls the *pure* normalize of
game.ts and discards its result, so it leaves `movement` unchanged and is
modelled as a no-op; `move` itself normalizes the vector it receives. -/
noncomputable def tickMove (p : Player) (w s a d : Bool) (dt : ℝ) : Player :=
  p.move (rawMovement p.speed dt w s a d)

/-- `handleInput(player, inputManager, dt)` of part_000 lines 381-389:
accumulate the same raw vector (from the held logical directions) and return
its normalization when it is non-zero, else a fresh zero vector. -/
noncomputable def handleInput (p : Player) (up down left right : Bool) (dt : ℝ) : Vector2 :=
  let movement := rawMovement p.speed dt up down left right
  if movement.x ≠ 0 ∨ movement.y ≠ 0 then movement.normalize else ⟨0, 0⟩

/-- One tick's movement of part_000 gameLoop lines 491-492:
`player.move(handleInput(player, inputManager, dt))` with the radius-aware
`move`. -/
noncomputable def tickMoveRadiusAware (p : Player) (up down left right : Bool) (dt : ℝ) : Player :=
  p.moveRadiusAware (handleInput p up down left right dt)

/-- Result of one FPS-sampler step: the updated sample timestamp, the updated
frame count, and the emitted count when the one-second window elapsed. -/
structure FpsResult where
  lastFPS : ℚ
  frameCount : ℕ
  emit : Option ℕ
deriving Repr, DecidableEq

/-- `updateFPS(ctx, lastFPS, frameCount)` of part_000 lines 362-370, equally
the inline block of game.ts gameLoop lines 282-287: when `now > lastFPS +
1000`, emit the current `frameCount` (there: draw and log it), set `lastFPS =
now` and reset `frameCount` to 0; otherwise change nothing and emit nothing.
Time is the caller's current timestamp in milliseconds. -/
def updateFPS (now lastFPS : ℚ) (frameCount : ℕ) : FpsResult :=
  if lastFPS + 1000 < now then ⟨now, 0, some frameCount⟩ else ⟨lastFPS, frameCount, none⟩

/-- The whole FPS bookkeeping of one tick: the sampler step followed by the
unconditional `frameCount++` of game.ts line 288 / part_000 line 489. -/
def fpsTick (lastFPS : ℚ) (frameCount : ℕ) (now : ℚ) : ℚ × ℕ × Option ℕ :=
  let r := updateFPS now lastFPS frameCount
  (r.lastFPS, r.frameCount + 1, r.emit)

/-- Run the per-tick FPS bookkeeping over a list of tick timestamps and
collect every emitted count in order. -/
def runFPS (lastFPS : ℚ) (frameCount : ℕ) : List ℚ → ℚ × ℕ × List ℕ
  | [] => (lastFPS, frameCount, [])
  | now :: rest =>
      let r := updateFPS now lastFPS frameCount
      let rec' := runFPS r.lastFPS (r.frameCount + 1) rest
      (rec'.1, rec'.2.1, r.emit.toList ++ rec'.2.2)

/-- The keys the game.ts gameLoop polls from the `InputManager` on one tick:
`Escape` for the pause check (line 267) and `w`/`s`/`a`/`d` for movement
(lines 291-294).  `InputManager` lower-cases keys symmetrically on store and
lookup, so each key is a single held/not-held bit per tick. -/
structure KeysHeld where
  escape : Bool
  w : Bool
  s : Bool
  a : Bool
  d : Bool

/-- The mutable state the game.ts gameLoop closes over: `GAMERUN` (line 8),
`paused` and `lastPausePressed` (lines 261-262), `lastTime`, `lastFPS`,
`frameCount` (lines 256-258) and `player1` (line 247).  Timestamps are
milliseconds. -/
structure LoopState where
  gamerun : Bool
  paused : Bool
  lastPausePressed : Bool
  lastTime : ℚ
  lastFPS : ℚ
  frameCount : ℕ
  player : Player

/-- The externally visible effects of one gameLoop invocation: whether
`requestAnimationFrame(gameLoop)` was called, whether the objects layer was
redrawn (`updateLayer(objCtx, ...)`), and the FPS count emitted via
`drawFPS`, when any. -/
structure TickEffects where
  scheduledNext : Bool
  redraw : Bool
  fpsEmit : Option ℕ

/-- `gameLoop(currentTime)` of game.ts lines 264-306, as a transition on
`LoopState`, with the keys polled this tick passed explicitly:

* line 265: if `GAMERUN` is false, return without scheduling;
* lines 267-272: poll Escape; when it is pressed and `lastPausePressed` is
  false, flip `paused`.  The source never reassigns `lastPausePressed`, so the
  model leaves it unchanged too;
* lines 274-277: when paused, schedule the next tick and return — nothing
  else changes, nothing is drawn;
* lines 279-280: `dt = (currentTime - lastTime)/1000`, `lastTime = currentTime`;
* lines 282-288: the FPS sampler step followed by `frameCount++`;
* lines 290-298: accumulate the movement vector from held WASD keys (the
  discarded pure `movement.normalize()` of line 296 included as a no-op) and
  `player1.move(movement)`;
* lines 301-305: redraw the objects layer and schedule the next tick. -/
noncomputable def gameLoop (st : LoopState) (keys : KeysHeld) (currentTime : ℚ) :
    LoopState × TickEffects :=
  if st.gamerun = false then (st, ⟨false, false, none⟩) else
  let pausePressed := keys.escape
  let paused := if pausePressed && !st.lastPausePressed then !st.paused else st.paused
  if paused then
    (⟨st.gamerun, paused, st.lastPausePressed, st.lastTime, st.lastFPS, st.frameCount,
      st.player⟩,
     ⟨true, false, none⟩)
  else
    let dt : ℚ := (currentTime - st.lastTime) / 1000
    let fps := updateFPS currentTime st.lastFPS st.frameCount
    let player := tickMove st.player keys.w keys.s keys.a keys.d ((dt : ℝ))
    (⟨st.gamerun, paused, st.lastPausePressed, currentTime, fps.lastFPS,
      fps.frameCount + 1, player⟩,
     ⟨true, true, fps.emit⟩)

/-- Iterate `gameLoop` over a list of (keys, timestamp) ticks, keeping the
state reached after each tick. -/
noncomputable def runLoopStates (st : LoopState) : List (KeysHeld × ℚ) → List LoopState
  | [] => []
  | t :: rest =>
      let st' := (gameLoop st t.1 t.2).1
      st' :: runLoopStates st' rest

/-! ### Basic facts about `Vector2.length` and `Vector2.normalize` -/

theorem Vector2.length_nonneg (v : Vector2) : 0 ≤ v.length :=
  Real.sqrt_nonneg _

theorem Vector2.length_eq_zero_iff (v : Vector2) : v.length = 0 ↔ v = ⟨0, 0⟩ := by
  unfold Vector2.length
  rw [Real.sqrt_eq_zero (by nlinarith [mul_self_nonneg v.x, mul_self_nonneg v.y])]
  constructor
  · intro h
    have hx : v.x = 0 := by nlinarith [mul_self_nonneg v.x, mul_self_nonneg v.y]
    have hy : v.y = 0 := by nlinarith [mul_self_nonneg v.x, mul_self_nonneg v.y]
    cases v
    simp_all
  · intro h
    rw [h]
    ring

theorem Vector2.length_pos_of_ne {v : Vector2} (h : v ≠ ⟨0, 0⟩) : 0 < v.length := by
  rcases lt_or_eq_of_le (Vector2.length_nonneg v) with hlt | heq
  · exact hlt
  · exact absurd ((Vector2.length_eq_zero_iff v).mp heq.symm) h

theorem Vector2.length_scale (c : ℝ) (v : Vector2) :
    Vector2.length ⟨c * v.x, c * v.y⟩ = |c| * v.length := by
  unfold Vector2.length
  rw [show c * v.x * (c * v.x) + c * v.y * (c * v.y)
        = (c * c) * (v.x * v.x + v.y * v.y) by ring,
    Real.sqrt_mul (mul_self_nonneg c), Real.sqrt_mul_self_eq_abs]

theorem Vector2.normalize_of_pos {v : Vector2} (h : 0 < v.length) :
    v.normalize = ⟨(1 / v.length) * v.x, (1 / v.length) * v.y⟩ := by
  unfold Vector2.normalize
  rw [if_pos h]
  simp [div_eq_mul_inv, mul_comm]

/-- C5: `Vector2.normalize` applied to the zero vector returns `(0,0)`; the
division is guarded by `length > 0`, so whenever the length is not positive
(which for the zero-guard means length zero), the result is the defined
policy value `(0,0)` rather than a division — normalize is total. -/
theorem normalize_zero_policy :
    Vector2.normalize ⟨0, 0⟩ = ⟨0, 0⟩ ∧
    ∀ v : Vector2, ¬ 0 < v.length → v.normalize = ⟨0, 0⟩ := by
  constructor
  · unfold Vector2.normalize
    rw [if_neg]
    simp [Vector2.length]
  · intro v h
    unfold Vector2.normalize
    rw [if_neg h]

/-- Witness for C5 at the concrete zero vector. -/
theorem normalize_zero_policy_witness : Vector2.normalize ⟨0, 0⟩ = ⟨0, 0⟩ :=
  normalize_zero_policy.2 ⟨0, 0⟩ (by simp [Vector2.length])

/-- C9: for every non-zero vector, `normalize` returns a vector of magnitude
exactly 1 that is a positive scalar multiple of the input, i.e. it points in
the same direction. -/
theorem normalize_unit_of_ne_zero (v : Vector2) (h : v ≠ ⟨0, 0⟩) :
    v.normalize.length = 1 ∧
    ∃ c : ℝ, 0 < c ∧ v.normalize = ⟨c * v.x, c * v.y⟩ := by
  have hl : 0 < v.length := Vector2.length_pos_of_ne h
  have hnorm := Vector2.normalize_of_pos hl
  have hc : 0 < 1 / v.length := by positivity
  refine ⟨?_, 1 / v.length, hc, hnorm⟩
  rw [hnorm, Vector2.length_scale, abs_of_pos hc, one_div,
    inv_mul_cancel₀ (ne_of_gt hl)]

/-- Witness for C9 at the concrete vector `(3, 4)`. -/
theorem normalize_unit_of_ne_zero_witness :
    (Vector2.normalize ⟨3, 4⟩).length = 1 ∧
    ∃ c : ℝ, 0 < c ∧ Vector2.normalize ⟨3, 4⟩ = ⟨c * 3, c * 4⟩ :=
  normalize_unit_of_ne_zero ⟨3, 4⟩ (by simp)

/-- C10: the pure `normalize` of game.ts (returns a fresh vector, `(0,0)` in
the zero-length case) and the in-place `normalize` of part_001 (mutates and
returns the receiver, leaving it unchanged in the zero-length case) compute
the same output value for every input vector: over the reals, zero length
forces the vector itself to be `(0,0)`, so the two zero-length policies
coincide. -/
theorem normalizeInPlace_eq_normalize (v : Vector2) :
    v.normalizeInPlace = v.normalize := by
  unfold Vector2.normalizeInPlace Vector2.normalize
  by_cases h : 0 < v.length
  · rw [if_pos h, if_pos h]
  · rw [if_neg h, if_neg h]
    exact (Vector2.length_eq_zero_iff v).mp
      (le_antisymm (not_lt.mp h) (Vector2.length_nonneg v))

/-! ### Bounds invariant of `Player.move` (C1) -/

/-- The radius-aware position invariant: `radius ≤ x ≤ GRID_COLS - radius`
and `radius ≤ y ≤ GRID_ROWS - radius`. -/
def InBoundsRadiusAware (p : Player) : Prop :=
  p.radius ≤ p.position.x ∧ p.position.x ≤ GRID_COLS - p.radius ∧
  p.radius ≤ p.position.y ∧ p.position.y ≤ GRID_ROWS - p.radius

/-- The radius-ignoring position invariant: `0 ≤ x ≤ GRID_COLS` and
`0 ≤ y ≤ GRID_ROWS`. -/
def InBounds (p : Player) : Prop :=
  0 ≤ p.position.x ∧ p.position.x ≤ GRID_COLS ∧
  0 ≤ p.position.y ∧ p.position.y ≤ GRID_ROWS

theorem moveRadiusAware_preserves {p : Player} (d : Vector2)
    (hp : InBoundsRadiusAware p) : InBoundsRadiusAware (p.moveRadiusAware d) := by
  obtain ⟨hx1, hx2, hy1, hy2⟩ := hp
  unfold Player.moveRadiusAware InBoundsRadiusAware
  dsimp only
  constructor
  · split <;> rename_i hc <;> [linarith [hc.1]; exact hx1]
  refine ⟨?_, ?_, ?_⟩
  · split <;> rename_i hc <;> [linarith [hc.2]; exact hx2]
  · split <;> rename_i hc <;> [linarith [hc.1]; exact hy1]
  · split <;> rename_i hc <;> [linarith [hc.2]; exact hy2]

theorem move_preserves {p : Player} (d : Vector2)
    (hp : InBounds p) : InBounds (p.move d) := by
  obtain ⟨hx1, hx2, hy1, hy2⟩ := hp
  unfold Player.move InBounds
  dsimp only
  constructor
  · split <;> rename_i hc <;> [exact hc.1; exact hx1]
  refine ⟨?_, ?_, ?_⟩
  · split <;> rename_i hc <;> [exact hc.2; exact hx2]
  · split <;> rename_i hc <;> [exact hc.1; exact hy1]
  · split <;> rename_i hc <;> [exact hc.2; exact hy2]

theorem foldl_moveRadiusAware_inv (ds : List Vector2) :
    ∀ p : Player, InBoundsRadiusAware p →
      InBoundsRadiusAware (ds.foldl Player.moveRadiusAware p) := by
  induction ds with
  | nil => intro p hp; exact hp
  | cons d rest ih => intro p hp; exact ih _ (moveRadiusAware_preserves d hp)

theorem foldl_move_inv (ds : List Vector2) :
    ∀ p : Player, InBounds p → InBounds (ds.foldl Player.move p) := by
  induction ds with
  | nil => intro p hp; exact hp
  | cons d rest ih => intro p hp; exact ih _ (move_preserves d hp)

/-- C1: starting from the initial player (position `(0.5, 0.5)`, radius
`0.2`), every sequence of `move` calls keeps the position invariant: the
radius-aware variant keeps `radius ≤ x ≤ GRID_COLS - radius` (and similarly
for y), and the radius-ignoring variant keeps `0 ≤ x ≤ GRID_COLS` (and
similarly for y); no call ever assigns an axis a value violating its bound. -/
theorem move_sequences_preserve_bounds (ds : List Vector2) :
    InBoundsRadiusAware (ds.foldl Player.moveRadiusAware initialPlayer) ∧
    InBounds (ds.foldl Player.move initialPlayer) := by
  constructor
  · refine foldl_moveRadiusAware_inv ds initialPlayer ?_
    unfold InBoundsRadiusAware initialPlayer GRID_COLS GRID_ROWS
    norm_num
  · refine foldl_move_inv ds initialPlayer ?_
    unfold InBounds initialPlayer GRID_COLS GRID_ROWS
    norm_num

/-! ### Axis-independent clamping (C3) -/

theorem normalize_y_pos {d : Vector2} (hx : 0 < d.x) (hy : 0 < d.y) :
    0 < d.normalize.y ∧ 0 < d.normalize.x := by
  have hne : d ≠ ⟨0, 0⟩ := by
    intro h
    rw [h] at hx
    exact lt_irrefl 0 hx
  have hl : 0 < d.length := Vector2.length_pos_of_ne hne
  rw [Vector2.normalize_of_pos hl]
  constructor <;> positivity

/-- C3: `Player.move` treats the two axes independently — an out-of-bounds
candidate on one axis leaves that axis unchanged while the other axis is
still updated whenever its own candidate is in bounds (stated for the
radius-ignoring and the radius-aware variant); in particular, a player at
`x = GRID_COLS - radius` with a direction pointing right and down (both
components positive) keeps its x coordinate under the radius-aware `move`
but strictly increases its y coordinate on that tick, provided the
y candidate respects its own bounds. -/
theorem move_axis_independent :
    (∀ (p : Player) (d : Vector2),
      (¬ (0 ≤ p.position.x + d.normalize.x * p.speed ∧
            p.position.x + d.normalize.x * p.speed ≤ GRID_COLS) →
          (p.move d).position.x = p.position.x) ∧
      ((0 ≤ p.position.y + d.normalize.y * p.speed ∧
            p.position.y + d.normalize.y * p.speed ≤ GRID_ROWS) →
          (p.move d).position.y = p.position.y + d.normalize.y * p.speed)) ∧
    (∀ (p : Player) (d : Vector2),
      (¬ (0 ≤ p.position.x + d.normalize.x * p.speed - p.radius ∧
            p.position.x + d.normalize.x * p.speed + p.radius ≤ GRID_COLS) →
          (p.moveRadiusAware d).position.x = p.position.x) ∧
      ((0 ≤ p.position.y + d.normalize.y * p.speed - p.radius ∧
            p.position.y + d.normalize.y * p.speed + p.radius ≤ GRID_ROWS) →
          (p.moveRadiusAware d).position.y = p.position.y + d.normalize.y * p.speed)) ∧
    (∀ (p : Player) (d : Vector2),
      0 < p.speed →
      p.position.x = GRID_COLS - p.radius →
      0 < d.x → 0 < d.y →
      0 ≤ p.position.y + d.normalize.y * p.speed - p.radius →
      p.position.y + d.normalize.y * p.speed + p.radius ≤ GRID_ROWS →
      (p.moveRadiusAware d).position.x = p.position.x ∧
      p.position.y < (p.moveRadiusAware d).position.y) := by
  refine ⟨?_, ?_, ?_⟩
  · intro p d
    unfold Player.move
    dsimp only
    constructor
    · intro hnot
      rw [if_neg hnot]
    · intro hin
      rw [if_pos hin]
  · intro p d
    unfold Player.moveRadiusAware
    dsimp only
    constructor
    · intro hnot
      rw [if_neg hnot]
    · intro hin
      rw [if_pos hin]
  · intro p d hsp hx hdx hdy hy1 hy2
    obtain ⟨hny, hnx⟩ := normalize_y_pos hdx hdy
    have hdeltax : 0 < d.normalize.x * p.speed := mul_pos hnx hsp
    have hdeltay : 0 < d.normalize.y * p.speed := mul_pos hny hsp
    unfold Player.moveRadiusAware
    dsimp only
    constructor
    · rw [if_neg]
      intro hc
      have := hc.2
      rw [hx] at this
      linarith
    · rw [if_pos ⟨hy1, hy2⟩]
      linarith

/-- Witness for C3 at the player `((9.8, 0.5), radius 0.2, speed 0.05)` and
the direction `(3, 4)` (normalizing to `(0.6, 0.8)`). -/
theorem move_axis_independent_witness :
    (Player.moveRadiusAware ⟨⟨9.8, 0.5⟩, 0.2, "lightgreen", 0.05⟩ ⟨3, 4⟩).position.x = 9.8 ∧
    0.5 < (Player.moveRadiusAware ⟨⟨9.8, 0.5⟩, 0.2, "lightgreen", 0.05⟩ ⟨3, 4⟩).position.y := by
  have hlen : Vector2.length ⟨3, 4⟩ = 5 := by
    unfold Vector2.length
    rw [show (3 : ℝ) * 3 + 4 * 4 = 5 * 5 by norm_num,
      Real.sqrt_mul_self (by norm_num)]
  have hn : Vector2.normalize ⟨3, 4⟩ = ⟨3 / 5, 4 / 5⟩ := by
    unfold Vector2.normalize
    rw [hlen, if_pos (by norm_num)]
  exact move_axis_independent.2.2 ⟨⟨9.8, 0.5⟩, 0.2, "lightgreen", 0.05⟩ ⟨3, 4⟩
    (by norm_num)
    (by unfold GRID_COLS; dsimp only; norm_num)
    (by norm_num) (by norm_num)
    (by rw [hn]; dsimp only; norm_num)
    (by rw [hn]; unfold GRID_ROWS; dsimp only; norm_num)

/-! ### Per-tick movement composition (C4, C6) -/

theorem normalize_zero : Vector2.normalize ⟨0, 0⟩ = ⟨0, 0⟩ := by
  unfold Vector2.normalize
  rw [if_neg]
  simp [Vector2.length]

theorem normalize_right_axis {m : ℝ} (hm : 0 < m) :
    Vector2.normalize ⟨m, 0⟩ = ⟨1, 0⟩ := by
  have hlen : Vector2.length ⟨m, 0⟩ = m := by
    unfold Vector2.length
    dsimp only
    rw [show m * m + 0 * 0 = m * m by ring, Real.sqrt_mul_self hm.le]
  unfold Vector2.normalize
  rw [hlen, if_pos hm, Vector2.mk.injEq]
  constructor
  · exact div_self (ne_of_gt hm)
  · exact zero_div m

theorem move_zero_vector (p : Player) : (p.move ⟨0, 0⟩).position = p.position := by
  unfold Player.move
  rw [normalize_zero]
  dsimp only
  simp

theorem moveRadiusAware_zero_vector (p : Player) :
    (p.moveRadiusAware ⟨0, 0⟩).position = p.position := by
  unfold Player.moveRadiusAware
  rw [normalize_zero]
  dsimp only
  simp

/-- C4: on a tick with `dt > 0` where only `right` is held and the x bound
does not interfere, the composed per-tick movement — accumulate the
`dt`-scaled contribution, then `Player.move`, which normalizes and scales by
`speed` — moves x forward by exactly `speed` and leaves y unchanged,
independently of `dt`; the same holds for the part_000 composition through
`handleInput` and the radius-aware `move`. -/
theorem tick_right_moves_exactly_speed (p : Player) (dt : ℝ)
    (hdt : 0 < dt) (hsp : 0 < p.speed)
    (hx0 : 0 ≤ p.position.x + p.speed) (hx1 : p.position.x + p.speed ≤ GRID_COLS)
    (hr0 : 0 ≤ p.position.x + p.speed - p.radius)
    (hr1 : p.position.x + p.speed + p.radius ≤ GRID_COLS) :
    (tickMove p false false false true dt).position.x = p.position.x + p.speed ∧
    (tickMove p false false false true dt).position.y = p.position.y ∧
    (tickMoveRadiusAware p false false false true dt).position.x
      = p.position.x + p.speed ∧
    (tickMoveRadiusAware p false false false true dt).position.y = p.position.y := by
  have hm : 0 < p.speed * dt := mul_pos hsp hdt
  have hraw : rawMovement p.speed dt false false false true = ⟨p.speed * dt, 0⟩ := by
    unfold rawMovement Vector2.add
    simp
  have hhi : handleInput p false false false true dt = ⟨1, 0⟩ := by
    unfold handleInput
    rw [hraw]
    rw [if_pos (Or.inl (ne_of_gt hm)), normalize_right_axis hm]
  refine ⟨?_, ?_, ?_, ?_⟩
  · unfold tickMove
    rw [hraw]
    unfold Player.move
    rw [normalize_right_axis hm]
    dsimp only
    rw [one_mul, if_pos ⟨hx0, hx1⟩]
  · unfold tickMove
    rw [hraw]
    unfold Player.move
    rw [normalize_right_axis hm]
    dsimp only
    simp
  · unfold tickMoveRadiusAware
    rw [hhi]
    unfold Player.moveRadiusAware
    rw [normalize_right_axis one_pos]
    dsimp only
    rw [one_mul, if_pos ⟨hr0, hr1⟩]
  · unfold tickMoveRadiusAware
    rw [hhi]
    unfold Player.moveRadiusAware
    rw [normalize_right_axis one_pos]
    dsimp only
    simp

/-- Witness for C4 at the initial player (speed `0.05`) and `dt = 2`. -/
theorem tick_right_moves_exactly_speed_witness :
    (tickMove initialPlayer false false false true 2).position.x = 0.5 + 0.05 ∧
    (tickMove initialPlayer false false false true 2).position.y = 0.5 ∧
    (tickMoveRadiusAware initialPlayer false false false true 2).position.x
      = 0.5 + 0.05 ∧
    (tickMoveRadiusAware initialPlayer false false false true 2).position.y = 0.5 :=
  tick_right_moves_exactly_speed initialPlayer 2 (by norm_num)
    (by unfold initialPlayer; norm_num)
    (by unfold initialPlayer; norm_num)
    (by unfold initialPlayer GRID_COLS; norm_num)
    (by unfold initialPlayer; norm_num)
    (by unfold initialPlayer GRID_COLS; norm_num)

/-- C6: when `up` and `down` are held together (and no horizontal key), the
accumulated raw vector is `(0,0)` before any normalization, and the
subsequent `move` leaves the position unchanged — in the game.ts composition
and in the part_000 `handleInput` composition alike. -/
theorem tick_up_down_cancels (p : Player) (dt : ℝ) :
    rawMovement p.speed dt true true false false = ⟨0, 0⟩ ∧
    (tickMove p true true false false dt).position = p.position ∧
    handleInput p true true false false dt = ⟨0, 0⟩ ∧
    (tickMoveRadiusAware p true true false false dt).position = p.position := by
  have hraw : rawMovement p.speed dt true true false false = ⟨0, 0⟩ := by
    unfold rawMovement Vector2.add
    simp
  have hhi : handleInput p true true false false dt = ⟨0, 0⟩ := by
    unfold handleInput
    rw [hraw]
    simp
  refine ⟨hraw, ?_, hhi, ?_⟩
  · unfold tickMove
    rw [hraw]
    exact move_zero_vector p
  · unfold tickMoveRadiusAware
    rw [hhi]
    exact moveRadiusAware_zero_vector p

/-! ### FPS sampler (C7) -/

/-- `n` tick timestamps starting at `t`, spaced 15 ms apart. -/
def sampleTimes : ℕ → ℚ → List ℚ
  | 0, _ => []
  | n + 1, t => t :: sampleTimes n (t + 15)

/-- The tick timestamps of the C7 scenario: 60 ticks delivered within 900 ms
(at 15 ms intervals, from 15 ms to 900 ms) followed by one more tick at
1005 ms; the window starts at `lastFPS = 0`. -/
def fpsScenarioTimes : List ℚ :=
  sampleTimes 60 15 ++ [1005]

/-- C7: the per-tick FPS sampler emits exactly when `now > lastFPS + 1000`,
and then emits the current `frameCount`, sets `lastFPS := now` and resets
the count to 0 (the surrounding tick then counts the current frame);
otherwise the tick increments the count and emits nothing.  On the scenario
of 60 ticks within 900 ms followed by one tick at 1005 ms, exactly one emit
fires and it reports 60. -/
theorem updateFPS_spec :
    (∀ (now lastFPS : ℚ) (frameCount : ℕ), lastFPS + 1000 < now →
        updateFPS now lastFPS frameCount = ⟨now, 0, some frameCount⟩) ∧
    (∀ (now lastFPS : ℚ) (frameCount : ℕ), ¬ lastFPS + 1000 < now →
        fpsTick lastFPS frameCount now = (lastFPS, frameCount + 1, none)) ∧
    runFPS 0 0 fpsScenarioTimes = (1005, 1, [60]) := by
  set_option maxRecDepth 4000 in
  refine ⟨?_, ?_, ?_⟩
  · intro now lastFPS frameCount h
    unfold updateFPS
    rw [if_pos h]
  · intro now lastFPS frameCount h
    unfold fpsTick updateFPS
    rw [if_neg h]
  · norm_num [runFPS, fpsScenarioTimes, sampleTimes, updateFPS]

/-- Witness for C7: one concrete emitting step and one concrete silent step. -/
theorem updateFPS_spec_witness :
    updateFPS 1200 0 42 = ⟨1200, 0, some 42⟩ ∧
    fpsTick 0 42 500 = (0, 43, none) :=
  ⟨updateFPS_spec.1 1200 0 42 (by norm_num),
   updateFPS_spec.2.1 500 0 42 (by norm_num)⟩

/-! ### Pause behavior of the game.ts loop (C2, C8) -/

/-- A tick on which only Escape is held. -/
def escOnly : KeysHeld := ⟨true, false, false, false, false⟩

/-- C2 (evidence of a code bug): `lastPausePressed` is initialized to `false`
and never reassigned in game.ts, so the press-edge comparison `pausePressed
&& !lastPausePressed` is true on *every* tick on which Escape is held: with
Escape pressed on one tick and held across the next 10 ticks, `paused`
toggles on all 11 ticks — pausing, resuming, pausing, ... — instead of
toggling exactly once on the press edge. -/
theorem escape_held_retoggles :
    (runLoopStates ⟨true, false, false, 0, 0, 0, initialPlayer⟩
        [(escOnly, 16), (escOnly, 32), (escOnly, 48), (escOnly, 64), (escOnly, 80),
         (escOnly, 96), (escOnly, 112), (escOnly, 128), (escOnly, 144), (escOnly, 160),
         (escOnly, 176)]).map LoopState.paused
      = [true, false, true, false, true, false, true, false, true, false, true] := by
  norm_num [runLoopStates, gameLoop, escOnly]

/-- C8: a gameLoop tick taken while the game is paused (after the
pause-toggle check) changes nothing but the `paused` flag itself: the player
(hence its position), `lastTime`, `lastFPS`, `frameCount` and
`lastPausePressed` are all untouched, nothing is redrawn, no FPS count is
emitted, and the next tick is still scheduled. -/
theorem paused_tick_is_noop (st : LoopState) (keys : KeysHeld) (t : ℚ)
    (hrun : st.gamerun = true)
    (hp : (if keys.escape && !st.lastPausePressed then !st.paused else st.paused) = true) :
    gameLoop st keys t =
      (⟨st.gamerun, true, st.lastPausePressed, st.lastTime, st.lastFPS,
        st.frameCount, st.player⟩,
       ⟨true, false, none⟩) := by
  unfold gameLoop
  rw [hrun]
  simp only [Bool.true_eq_false, if_false, hp, if_true]

/-- Witness for C8: a concrete already-paused state with no key held. -/
theorem paused_tick_is_noop_witness :
    gameLoop ⟨true, true, false, 7, 3, 5, initialPlayer⟩ ⟨false, false, false, false, false⟩ 42 =
      (⟨true, true, false, 7, 3, 5, initialPlayer⟩, ⟨true, false, none⟩) :=
  paused_tick_is_noop ⟨true, true, false, 7, 3, 5, initialPlayer⟩
    ⟨false, false, false, false, false⟩ 42 rfl rfl

end TGame
